import Mathlib

/-!
A shallow embedding of the Smart Pharma Assistant's core engines, translated
from `src/app.py` (alert rule engine, sale transaction engine, batch and
medicine admin operations) and `src/init_db.py` (schema and seed data).

Modelling conventions:
* SQLite rows become Lean structures; the four tables live in a `DB` record.
* Dates (`DATE` columns, `datetime.now().date()`) are abstracted to integer
  day numbers; SQLite compares `YYYY-MM-DD` strings lexicographically, which
  agrees with day-number order, and Python computes `days_left` by date
  subtraction, which agrees with day-number subtraction.
* Python float arithmetic on prices is modelled over `ℚ`; `round(x, 2)`
  (round-half-to-even) is modelled exactly on `ℚ` by `round2`.
* `sqlite3` transaction semantics: the connection opened by `get_db()` only
  persists its INSERT/UPDATE statements when `db.commit()` runs.  The sale
  handler returns early (without commit) on every error path, so the
  uncommitted per-line updates are rolled back when the connection is
  discarded; the model therefore returns the initial state on error paths.
* `get_db()` never issues `PRAGMA foreign_keys = ON`, and SQLite leaves
  foreign-key enforcement OFF by default, so the `ON DELETE CASCADE` clause
  declared on `batches.medicine_id` in `init_db.py` has no runtime effect:
  deleting a medicine row leaves its batch rows in place.
-/

namespace SmartPharma

/-- `alert_type` column of the `alerts` table (values used by the code). -/
inductive AlertType where
  | low_stock
  | expiry
  | expired
  deriving DecidableEq

/-- `priority` column of the `alerts` table. -/
inductive Priority where
  | low
  | medium
  | high
  deriving DecidableEq

/-- A row of the `medicines` table (columns not used by the core engines,
such as `composition` or `dosage`, are omitted). -/
structure Medicine where
  id : Nat
  name : String
  deriving DecidableEq

/-- A row of the `batches` table (`mfg_date`, `supplier`, `created_at`
omitted; `expiry_date` is an integer day number). -/
structure Batch where
  id : Nat
  medicine_id : Nat
  batch_no : String
  quantity : Int
  mrp : ℚ
  cost_price : ℚ
  expiry_date : Int
  deriving DecidableEq

/-- A row of the `sales` table (customer metadata columns omitted: they are
copied verbatim from the request and play no role in the claims). -/
structure Sale where
  batch_id : Nat
  quantity_sold : Int
  selling_price : ℚ
  deriving DecidableEq

/-- A row of the `alerts` table. -/
structure Alert where
  alert_type : AlertType
  message : String
  medicine_id : Option Nat
  batch_id : Option Nat
  priority : Priority
  is_read : Bool
  deriving DecidableEq

/-- The persisted database state: the four tables the core engines touch. -/
structure DB where
  medicines : List Medicine
  batches : List Batch
  sales : List Sale
  alerts : List Alert
  deriving DecidableEq

/-! ### SQL `LIKE` matching

`create_alert` deduplicates with `message LIKE ?` against the pattern
`'%' + message[:50] + '%'`.  SQLite's default `LIKE` is case-insensitive for
the ASCII letters A–Z, `%` matches any character sequence and `_` matches any
single character. -/

/-- ASCII case folding as performed by SQLite's default `LIKE`. -/
def charFold (c : Char) : Char :=
  if 'A' ≤ c ∧ c ≤ 'Z' then Char.ofNat (c.toNat + 32) else c

/-- SQLite `LIKE` pattern matching: `likeMatch pat text` decides
`text LIKE pat` for the default (ASCII case-insensitive) collation.
`%` consumes any sequence (the rest of the pattern must match some suffix
of the text), `_` consumes one character, and any other pattern character
must match the text character up to ASCII case. -/
def likeMatch : List Char → List Char → Bool
  | [], t => t.isEmpty
  | c :: ps, t =>
    if c = '%' then
      t.tails.any fun s => likeMatch ps s
    else
      match t with
      | [] => false
      | x :: t' => (if c = '_' then true else charFold c = charFold x) && likeMatch ps t'

/-- The `LIKE` pattern `f'%{message[:50]}%'` built by `create_alert`. -/
def likePattern (message : String) : List Char :=
  '%' :: (message.toList.take 50 ++ ['%'])

/-- The dedup query of `create_alert` (app.py:79–83): is there an unread
alert of the same type whose message matches `'%' + message[:50] + '%'`? -/
def dedupHit (alerts : List Alert) (t : AlertType) (message : String) : Bool :=
  alerts.any fun a =>
    decide (a.alert_type = t) && likeMatch (likePattern message) a.message.toList && !a.is_read

/-- `create_alert` (app.py:75–95): insert a new unread alert unless the dedup
query finds a similar unread alert of the same type. -/
def create_alert (alerts : List Alert) (t : AlertType) (message : String)
    (mid bid : Option Nat) (pr : Priority) : List Alert :=
  if dedupHit alerts t message then alerts
  else alerts ++ [{ alert_type := t, message := message, medicine_id := mid,
                    batch_id := bid, priority := pr, is_read := false }]

/-! ### Alert rule engine (`check_and_create_alerts`, app.py:98–163) -/

/-- An invocation of `create_alert` that the rule engine is about to make. -/
structure Candidate where
  alert_type : AlertType
  message : String
  medicine_id : Option Nat
  batch_id : Option Nat
  priority : Priority
  deriving DecidableEq

/-- `COALESCE(SUM(b.quantity), 0)` over the batches of one medicine
(the `LEFT JOIN ... GROUP BY m.id, m.name` of the low-stock query). -/
def totalStock (batches : List Batch) (mid : Nat) : Int :=
  ((batches.filter fun b => decide (b.medicine_id = mid)).map Batch.quantity).sum

/-- The low-stock rule for one medicine (app.py:102–120): the SQL keeps
medicines with `total_stock > 0`, and the loop body fires when
`total_stock <= 20`, with priority `high` when `total_stock <= 5`. -/
def lowStockCandidate (batches : List Batch) (m : Medicine) : Option Candidate :=
  let total := totalStock batches m.id
  if 0 < total ∧ total ≤ 20 then
    some { alert_type := .low_stock,
           message := m.name ++ " is running low (" ++ toString total ++ " units left)",
           medicine_id := some m.id,
           batch_id := none,
           priority := if total ≤ 5 then .high else .medium }
  else none

/-- The near-expiry rule for one batch (app.py:122–140): the SQL joins the
owning medicine, keeps batches with `expiry_date BETWEEN DATE('now') AND
DATE('now', '+30 days')` and `quantity > 0`; priority is `high` when at most
7 days remain. -/
def nearExpiryCandidate (medicines : List Medicine) (today : Int) (b : Batch) :
    Option Candidate :=
  match medicines.find? fun m => decide (m.id = b.medicine_id) with
  | none => none
  | some m =>
    if today ≤ b.expiry_date ∧ b.expiry_date ≤ today + 30 ∧ 0 < b.quantity then
      let d := b.expiry_date - today
      some { alert_type := .expiry,
             message := "Batch " ++ b.batch_no ++ " of " ++ m.name ++
                        " expires in " ++ toString d ++ " days",
             medicine_id := some m.id,
             batch_id := some b.id,
             priority := if d ≤ 7 then .high else .medium }
    else none

/-- The expired rule for one batch (app.py:142–157): the SQL joins the owning
medicine and keeps batches with `expiry_date < DATE('now')` and
`quantity > 0`; priority is always `high`. -/
def expiredCandidate (medicines : List Medicine) (today : Int) (b : Batch) :
    Option Candidate :=
  match medicines.find? fun m => decide (m.id = b.medicine_id) with
  | none => none
  | some m =>
    if b.expiry_date < today ∧ 0 < b.quantity then
      some { alert_type := .expired,
             message := "Batch " ++ b.batch_no ++ " of " ++ m.name ++ " has expired",
             medicine_id := some m.id,
             batch_id := some b.id,
             priority := .high }
    else none

/-- All `create_alert` invocations of one engine run, in evaluation order. -/
def alertCandidates (db : DB) (today : Int) : List Candidate :=
  db.medicines.filterMap (lowStockCandidate db.batches) ++
    db.batches.filterMap (nearExpiryCandidate db.medicines today) ++
    db.batches.filterMap (expiredCandidate db.medicines today)

/-- Perform one candidate's `create_alert` call. -/
def insertCandidate (alerts : List Alert) (c : Candidate) : List Alert :=
  create_alert alerts c.alert_type c.message c.medicine_id c.batch_id c.priority

/-- One run of `check_and_create_alerts` (app.py:98–163): evaluate the three
rules against the current medicine/batch state and feed every candidate
through `create_alert`. -/
def check_and_create_alerts (db : DB) (today : Int) : DB :=
  { db with alerts := (alertCandidates db today).foldl insertCandidate db.alerts }

/-! ### Money rounding

`round(x, 2)` in Python rounds half to even; on exact values this is
`roundHalfEven (100 * x) / 100`. -/

/-- Round a rational to the nearest integer, ties to even. -/
def roundHalfEven (q : ℚ) : ℤ :=
  let f := ⌊q⌋
  let r := q - f
  if r < 1 / 2 then f
  else if 1 / 2 < r then f + 1
  else if f % 2 = 0 then f else f + 1

/-- `round(x, 2)`: round to two decimal places. -/
def round2 (q : ℚ) : ℚ := (roundHalfEven (q * 100) : ℚ) / 100

/-! ### Sale transaction engine (`sell_medicine`, app.py:488–683) -/

/-- One already-parsed cart line (`batch_id[]`, `quantity[]`, `price[]`). -/
structure SaleLine where
  batch_id : Nat
  quantity : Int
  price : ℚ
  deriving DecidableEq

/-- A parsed POST body of `/sell` (customer metadata beyond the two required
fields is copied through untouched and omitted here). -/
structure SaleRequest where
  customer_name : String
  customer_phone : String
  lines : List SaleLine
  deriving DecidableEq

/-- The error responses `/sell` can produce before committing. -/
inductive SaleError where
  | validationError (msg : String)
  | batchNotFound (batch_id : Nat)
  | insufficientStock (batch_no : String) (available requested : Int)
  deriving DecidableEq

/-- One entry of the receipt's `items` list. -/
structure ReceiptItem where
  medicine_name : String
  batch_no : String
  quantity : Int
  price : ℚ
  total : ℚ
  deriving DecidableEq

/-- The computed `sale_details` summary (synthetic identifiers and timestamps
omitted). -/
structure Receipt where
  items : List ReceiptItem
  subtotal : ℚ
  tax_amount : ℚ
  grand_total : ℚ
  deriving DecidableEq

/-- `SELECT * FROM batches WHERE id = ?`. -/
def findBatch (batches : List Batch) (id : Nat) : Option Batch :=
  batches.find? fun b => decide (b.id = id)

/-- `UPDATE batches SET quantity = quantity - ? WHERE id = ?`. -/
def decrementBatch (batches : List Batch) (id : Nat) (q : Int) : List Batch :=
  batches.map fun b => if b.id = id then { b with quantity := b.quantity - q } else b

/-- The connection state after one successful line: the batch decremented
(`UPDATE batches SET quantity = quantity - ? WHERE id = ?`) and one sale row
inserted (`INSERT INTO sales ...`). -/
def lineDB (db : DB) (l : SaleLine) : DB :=
  { db with batches := decrementBatch db.batches l.batch_id l.quantity,
            sales := db.sales ++ [{ batch_id := l.batch_id,
                                    quantity_sold := l.quantity,
                                    selling_price := l.price }] }

/-- The receipt entry appended to `sale_items` for one line:
`item_total = price * quantity`, with the medicine name resolved through the
batch (defaulting to "Unknown" when the medicine row is missing). -/
def lineItem (db : DB) (batch : Batch) (l : SaleLine) : ReceiptItem :=
  { medicine_name :=
      match db.medicines.find? fun m => decide (m.id = batch.medicine_id) with
      | some m => m.name
      | none => "Unknown",
    batch_no := batch.batch_no, quantity := l.quantity, price := l.price,
    total := l.price * l.quantity }

/-- The per-line loop of `/sell` (app.py:553–619), acting on the open
connection's (uncommitted) view of the database: resolve the batch, check
stock against the current (possibly already decremented) quantity, build the
receipt item, decrement the batch and insert the sale row. -/
def sellLoop (db : DB) : List SaleLine → Except SaleError (DB × List ReceiptItem)
  | [] => .ok (db, [])
  | l :: rest =>
    match findBatch db.batches l.batch_id with
    | none => .error (.batchNotFound l.batch_id)
    | some batch =>
      if batch.quantity < l.quantity then
        .error (.insufficientStock batch.batch_no batch.quantity l.quantity)
      else
        match sellLoop (lineDB db l) rest with
        | .error e => .error e
        | .ok (db'', items) => .ok (db'', lineItem db batch l :: items)

/-- `total_amount`, accumulated over the items in order. -/
def sumTotals (items : List ReceiptItem) : ℚ :=
  items.foldl (fun s i => s + i.total) 0

/-- The POST handler of `/sell` (app.py:488–683).  The second component is
the state the database persists: `db.commit()` runs only after every line
has been processed successfully, and every error path returns without
committing, so the connection's uncommitted updates are discarded and the
persisted state is the initial one. -/
def sell_medicine (db : DB) (req : SaleRequest) : Except SaleError Receipt × DB :=
  if req.customer_name = "" ∨ req.customer_phone = "" then
    (.error (.validationError "Customer name and phone are required"), db)
  else if req.lines = [] then
    (.error (.validationError "Please add medicines to cart"), db)
  else
    match sellLoop db req.lines with
    | .error e => (.error e, db)
    | .ok (db', items) =>
      let subtotal := sumTotals items
      let tax := subtotal * (5 / 100)
      (.ok { items := items,
             subtotal := round2 subtotal,
             tax_amount := round2 tax,
             grand_total := round2 (subtotal + tax) }, db')

/-! ### Batch creation (`add_batch`, app.py:420–486) -/

/-- The parsed form of `/batch/add` (fields not needed by the claims
omitted; `medicine_id` is optional because the form may omit it). -/
structure BatchForm where
  medicine_id : Option Nat
  batch_no : String
  quantity : Int
  mrp : ℚ
  cost_price : ℚ
  expiry_date : Int
  deriving DecidableEq

/-- A fresh `batches.id`, as produced by `INTEGER PRIMARY KEY AUTOINCREMENT`:
strictly greater than every existing id. -/
def nextBatchId (db : DB) : Nat :=
  (db.batches.map Batch.id).foldl max 0 + 1

/-- The POST handler of `/batch/add` (app.py:420–486).  Validation rejects a
missing medicine id or empty batch number and a duplicate batch number;
otherwise the batch row is inserted with the quantity parsed from the form
(no sign check) and committed, after which a near-expiry alert for the new
batch may be created (skipped when the medicine row is missing, because the
name lookup then raises and the handler catches, leaving the committed batch
in place).  Error results leave the database unchanged. -/
def add_batch (db : DB) (f : BatchForm) (today : Int) : Except String DB :=
  match f.medicine_id with
  | none => .error "Batch number and medicine are required"
  | some mid =>
    if f.batch_no = "" then .error "Batch number and medicine are required"
    else if db.batches.any fun b => decide (b.batch_no = f.batch_no) then
      .error "Batch number already exists"
    else
      let b : Batch :=
        { id := nextBatchId db, medicine_id := mid, batch_no := f.batch_no,
          quantity := f.quantity, mrp := f.mrp, cost_price := f.cost_price,
          expiry_date := f.expiry_date }
      let db1 : DB := { db with batches := db.batches ++ [b] }
      let days := f.expiry_date - today
      if days ≤ 30 then
        match db1.medicines.find? fun m => decide (m.id = mid) with
        | some m =>
          let msg := "New batch " ++ f.batch_no ++ " of " ++ m.name ++
                     " expires in " ++ toString days ++ " days"
          let pr : Priority := if days ≤ 7 then .high else .medium
          let alerts' := create_alert db1.alerts AlertType.expiry msg (some mid) none pr
          .ok { db1 with alerts := alerts' }
        | none => .ok db1
      else .ok db1

/-! ### Medicine deletion (`delete_medicine`, app.py:398–418)

The handler runs `DELETE FROM medicines WHERE id = ?` and commits.  The
schema declares `ON DELETE CASCADE` on `batches.medicine_id`
(init_db.py:57), but foreign-key enforcement is never enabled on the
connection (SQLite's `PRAGMA foreign_keys` defaults to OFF and `get_db()`
does not set it), so at runtime only the medicine row is removed and the
batch rows survive. -/

/-- `delete_medicine` as it actually executes: the batches table is left
untouched. -/
def delete_medicine (db : DB) (id : Nat) : DB :=
  { db with medicines := db.medicines.filter fun m => !decide (m.id = id) }

/-- Modelled from the spec: the cascading delete the schema declares and the
spec describes — removing the medicine row and every batch row referencing
it.  This is what `delete_medicine` would do if foreign-key enforcement were
enabled; it is stated here only to compare against the actual behaviour. -/
def delete_medicine_cascade (db : DB) (id : Nat) : DB :=
  { db with medicines := db.medicines.filter fun m => !decide (m.id = id),
            batches := db.batches.filter fun b => !decide (b.medicine_id = id) }

/-! ### Reachable states

The public state-mutating operations the claims quantify over: batch
creation and sale processing, starting from the database `init_db.py`
seeds. -/

/-- The state `init_db.py` creates: five sample medicines, four sample
batches (quantities 100, 50, 75, 60) and two seed alerts.  Expiry dates are
day numbers counted from 2024-01-01. -/
def initDB : DB :=
  { medicines :=
      [{ id := 1, name := "Paracetamol" }, { id := 2, name := "Ibuprofen" },
       { id := 3, name := "Amoxicillin" }, { id := 4, name := "Cetirizine" },
       { id := 5, name := "Omeprazole" }],
    batches :=
      [{ id := 1, medicine_id := 1, batch_no := "BATCH001", quantity := 100,
         mrp := 5, cost_price := 7 / 2, expiry_date := 1095 },
       { id := 2, medicine_id := 1, batch_no := "BATCH002", quantity := 50,
         mrp := 5, cost_price := 7 / 2, expiry_date := 546 },
       { id := 3, medicine_id := 2, batch_no := "BATCH003", quantity := 75,
         mrp := 8, cost_price := 5, expiry_date := 973 },
       { id := 4, medicine_id := 3, batch_no := "BATCH004", quantity := 60,
         mrp := 12, cost_price := 8, expiry_date := 455 }],
    sales := [],
    alerts :=
      [{ alert_type := .low_stock,
         message := "Paracetamol is running low (100 units left)",
         medicine_id := some 1, batch_id := none, priority := .medium,
         is_read := false },
       { alert_type := .expiry,
         message := "Batch BATCH004 of Amoxicillin expires soon",
         medicine_id := some 3, batch_id := none, priority := .high,
         is_read := false }] }

/-- A public state-mutating operation together with its request data. -/
inductive Op where
  | addBatch (f : BatchForm) (today : Int)
  | sell (req : SaleRequest)

/-- Apply one operation; error results leave the persisted state unchanged. -/
def applyOp (db : DB) : Op → DB
  | .addBatch f today =>
    match add_batch db f today with
    | .ok db' => db'
    | .error _ => db
  | .sell req => (sell_medicine db req).2

/-- States reachable from `db0` by batch creation and sale processing. -/
inductive ReachableFrom (db0 : DB) : DB → Prop
  | refl : ReachableFrom db0 db0
  | step {db : DB} (op : Op) : ReachableFrom db0 db → ReachableFrom db0 (applyOp db op)

/-- States reachable from `db0` when every batch-creation request carries a
non-negative quantity (sale requests are unrestricted). -/
inductive ReachableNN (db0 : DB) : DB → Prop
  | refl : ReachableNN db0 db0
  | addBatch {db : DB} (f : BatchForm) (today : Int) (hq : 0 ≤ f.quantity) :
      ReachableNN db0 db → ReachableNN db0 (applyOp db (.addBatch f today))
  | sell {db : DB} (req : SaleRequest) :
      ReachableNN db0 db → ReachableNN db0 (applyOp db (.sell req))

/-! ## Lemmas about `LIKE` matching and deduplication -/

theorem likeMatch_nil (t : List Char) : likeMatch [] t = t.isEmpty := by
  simp [likeMatch]

theorem likeMatch_percent_nil (t : List Char) : likeMatch ['%'] t = true := by
  simp only [likeMatch, if_true, List.any_eq_true]
  exact ⟨[], by simp [List.mem_tails], rfl⟩

/-- A pattern ending in `%` matches any text that starts with the pattern's
literal part (each character matches itself, `_` and `%` being generous). -/
theorem likeMatch_append_self (p b : List Char) : likeMatch (p ++ ['%']) (p ++ b) = true := by
  induction p generalizing b with
  | nil => simpa using likeMatch_percent_nil b
  | cons c p ih =>
    by_cases hc : c = '%'
    · subst hc
      simp only [List.cons_append, likeMatch, if_true, List.any_eq_true]
      exact ⟨p ++ b, by simp [List.mem_tails, List.suffix_cons], ih b⟩
    · simp only [List.cons_append, likeMatch, if_neg hc, Bool.and_eq_true]
      refine ⟨?_, ih b⟩
      by_cases hu : c = '_' <;> simp [hu]

/-- Any message matches the `LIKE` pattern built from its own first 50
characters. -/
theorem likeMatch_self_pattern (m : String) : likeMatch (likePattern m) m.toList = true := by
  unfold likePattern
  simp only [likeMatch, if_true, List.any_eq_true]
  refine ⟨m.toList, by simp [List.mem_tails], ?_⟩
  have h := likeMatch_append_self (m.toList.take 50) (m.toList.drop 50)
  rwa [List.take_append_drop] at h

/-- The dedup query succeeds exactly when an unread alert of the same type
matches the candidate's `LIKE` pattern. -/
theorem dedupHit_iff (alerts : List Alert) (t : AlertType) (msg : String) :
    dedupHit alerts t msg = true ↔
      ∃ a ∈ alerts, a.alert_type = t ∧ a.is_read = false ∧
        likeMatch (likePattern msg) a.message.toList = true := by
  simp only [dedupHit, List.any_eq_true, Bool.and_eq_true, decide_eq_true_iff,
    Bool.not_eq_true']
  constructor
  · rintro ⟨a, ha, ⟨h1, h2⟩, h3⟩
    exact ⟨a, ha, h1, h3, h2⟩
  · rintro ⟨a, ha, h1, h2, h3⟩
    exact ⟨a, ha, ⟨h1, h3⟩, h2⟩

/-- An alert that deduplicates a candidate: unread, same type, `LIKE`-matched
by the candidate's pattern. -/
def matchesCand (c : Candidate) (a : Alert) : Prop :=
  a.alert_type = c.alert_type ∧ a.is_read = false ∧
    likeMatch (likePattern c.message) a.message.toList = true

theorem insertCandidate_of_match (alerts : List Alert) (c : Candidate)
    (h : ∃ a ∈ alerts, matchesCand c a) : insertCandidate alerts c = alerts := by
  unfold insertCandidate create_alert
  rw [if_pos]
  obtain ⟨a, ha, h1, h2, h3⟩ := h
  exact (dedupHit_iff _ _ _).2 ⟨a, ha, h1, h2, h3⟩

theorem mem_insertCandidate (alerts : List Alert) (c : Candidate) (a : Alert)
    (h : a ∈ alerts) : a ∈ insertCandidate alerts c := by
  unfold insertCandidate create_alert
  split
  · exact h
  · exact List.mem_append_left _ h

theorem insertCandidate_has_match (alerts : List Alert) (c : Candidate) :
    ∃ a ∈ insertCandidate alerts c, matchesCand c a := by
  unfold insertCandidate create_alert
  split
  · next hdup =>
    obtain ⟨a, ha, h1, h2, h3⟩ := (dedupHit_iff _ _ _).1 hdup
    exact ⟨a, ha, h1, h2, h3⟩
  · refine ⟨_, List.mem_append_right _ (List.mem_singleton_self _), ?_⟩
    exact ⟨rfl, rfl, likeMatch_self_pattern c.message⟩

theorem mem_foldl_insertCandidate (cs : List Candidate) (alerts : List Alert)
    (a : Alert) (h : a ∈ alerts) : a ∈ cs.foldl insertCandidate alerts := by
  induction cs generalizing alerts with
  | nil => exact h
  | cons c cs ih => exact ih _ (mem_insertCandidate _ _ _ h)

theorem foldl_insertCandidate_match (cs : List Candidate) (alerts : List Alert) :
    ∀ c ∈ cs, ∃ a ∈ cs.foldl insertCandidate alerts, matchesCand c a := by
  induction cs generalizing alerts with
  | nil => intro c hc; cases hc
  | cons c0 cs ih =>
    intro c hc
    rw [List.foldl_cons]
    rcases List.mem_cons.1 hc with rfl | hc
    · obtain ⟨a, ha, hm⟩ := insertCandidate_has_match alerts c
      exact ⟨a, mem_foldl_insertCandidate cs _ a ha, hm⟩
    · exact ih _ c hc

theorem foldl_insertCandidate_id (cs : List Candidate) (alerts : List Alert)
    (h : ∀ c ∈ cs, ∃ a ∈ alerts, matchesCand c a) :
    cs.foldl insertCandidate alerts = alerts := by
  induction cs with
  | nil => rfl
  | cons c cs ih =>
    rw [List.foldl_cons, insertCandidate_of_match _ _ (h c (List.mem_cons_self _ _))]
    exact ih fun c hc => h c (List.mem_cons_of_mem _ hc)

/-! ## Claim theorems -/

/-- C5 (amended): `create_alert` skips insertion exactly when an unread alert
of the same `alert_type` exists whose message matches the SQL `LIKE` pattern
`'%' + message[:50] + '%'` — i.e. contains the candidate's first 50
characters (ASCII-case-insensitively, `%`/`_` inside those characters acting
as wildcards); otherwise it appends one new unread alert row. -/
theorem claim_C5_dedup_amended (alerts : List Alert) (t : AlertType) (msg : String)
    (mid bid : Option Nat) (pr : Priority) :
    ((∃ a ∈ alerts, a.alert_type = t ∧ a.is_read = false ∧
        likeMatch (likePattern msg) a.message.toList = true) →
      create_alert alerts t msg mid bid pr = alerts) ∧
    ((¬ ∃ a ∈ alerts, a.alert_type = t ∧ a.is_read = false ∧
        likeMatch (likePattern msg) a.message.toList = true) →
      create_alert alerts t msg mid bid pr =
        alerts ++ [{ alert_type := t, message := msg, medicine_id := mid,
                     batch_id := bid, priority := pr, is_read := false }]) := by
  constructor
  · intro h
    unfold create_alert
    rw [if_pos ((dedupHit_iff _ _ _).2 h)]
  · intro h
    unfold create_alert
    rw [if_neg fun hd => h ((dedupHit_iff _ _ _).1 hd)]

/-- An unread alert whose message strictly contains the candidate message
"foo" without sharing its leading substring. -/
def alertXfoo : Alert :=
  { alert_type := .low_stock, message := "xfoo", medicine_id := none,
    batch_id := none, priority := .medium, is_read := false }

/-- C5 (counterexample): with one unread `low_stock` alert whose message is
"xfoo", no unread alert shares the candidate message "foo"'s leading
50-character substring, so the claim demands an insertion — yet
`create_alert` leaves the table unchanged, because its `LIKE '%foo%'` dedup
query also matches messages that merely *contain* the prefix. -/
theorem claim_C5_dedup_counterexample :
    (∀ a ∈ [alertXfoo], ¬(a.alert_type = AlertType.low_stock ∧ a.is_read = false ∧
        a.message.toList.take 50 = ("foo" : String).toList.take 50)) ∧
    create_alert [alertXfoo] .low_stock "foo" none none .medium = [alertXfoo] := by
  constructor
  · decide
  · decide

/-- C5 (witness): the amended theorem applied at concrete inputs — the
"xfoo" table dedups the candidate "foo", and an empty table accepts it. -/
theorem claim_C5_dedup_witness :
    create_alert [alertXfoo] .low_stock "foo" none none .medium = [alertXfoo] ∧
    create_alert [] .low_stock "foo" none none .medium =
      [{ alert_type := .low_stock, message := "foo", medicine_id := none,
         batch_id := none, priority := .medium, is_read := false }] :=
  ⟨(claim_C5_dedup_amended [alertXfoo] .low_stock "foo" none none .medium).1
      (by exact ⟨alertXfoo, by decide, by decide, by decide, by decide⟩),
   by
    have h := (claim_C5_dedup_amended [] .low_stock "foo" none none .medium).2
      (by simp)
    simpa using h⟩

/-- C7 (confirmed): running the alert rule engine twice in succession, with
no intervening change to medicines, batches or alert read-status, changes
nothing over running it once — the second run inserts zero new alert rows,
because every candidate it generates is deduplicated by the (still unread)
alert guaranteed by the first run. -/
theorem claim_C7_alert_idempotent (db : DB) (today : Int) :
    check_and_create_alerts (check_and_create_alerts db today) today =
      check_and_create_alerts db today := by
  have key := foldl_insertCandidate_id (alertCandidates db today)
      ((alertCandidates db today).foldl insertCandidate db.alerts)
      (foldl_insertCandidate_match _ _)
  exact congrArg (fun a => { db with alerts := a }) key

/-! ## Lemmas about the sale loop -/

/-- The effect of `UPDATE batches SET quantity = quantity - ? WHERE id = ?`
on a single row. -/
def decLine (l : SaleLine) (b : Batch) : Batch :=
  if b.id = l.batch_id then { b with quantity := b.quantity - l.quantity } else b

theorem lineDB_batches (db : DB) (l : SaleLine) :
    (lineDB db l).batches = db.batches.map (decLine l) := rfl

theorem decLine_id (l : SaleLine) (b : Batch) : (decLine l b).id = b.id := by
  unfold decLine; split <;> rfl

theorem decLine_batch_no (l : SaleLine) (b : Batch) :
    (decLine l b).batch_no = b.batch_no := by
  unfold decLine; split <;> rfl

theorem decLine_quantity (l : SaleLine) (b : Batch) :
    (decLine l b).quantity =
      b.quantity - (if b.id = l.batch_id then l.quantity else 0) := by
  unfold decLine; split <;> simp

theorem lineDB_map_id (db : DB) (l : SaleLine) :
    ((lineDB db l).batches.map Batch.id) = db.batches.map Batch.id := by
  rw [lineDB_batches, List.map_map]
  exact List.map_congr_left fun b _ => decLine_id l b

theorem findBatch_mem {batches : List Batch} {id : Nat} {b : Batch}
    (h : findBatch batches id = some b) : b ∈ batches :=
  List.mem_of_find?_eq_some h

theorem findBatch_id {batches : List Batch} {id : Nat} {b : Batch}
    (h : findBatch batches id = some b) : b.id = id := by
  have := List.find?_some h
  simpa using this

theorem findBatch_isSome {batches : List Batch} {id : Nat}
    (h : ∃ b ∈ batches, b.id = id) : ∃ b, findBatch batches id = some b := by
  obtain ⟨b, hb, hid⟩ := h
  have hs : (batches.find? fun c => decide (c.id = id)).isSome := by
    rw [List.find?_isSome]
    exact ⟨b, hb, by simpa using hid⟩
  obtain ⟨c, hc⟩ := Option.isSome_iff_exists.1 hs
  exact ⟨c, hc⟩

/-- With pairwise-distinct batch ids (the primary-key invariant), the row
`find?` returns is the unique row with the requested id. -/
theorem findBatch_unique {batches : List Batch} {id : Nat} {b c : Batch}
    (hnd : (batches.map Batch.id).Nodup) (hfind : findBatch batches id = some c)
    (hb : b ∈ batches) (hid : b.id = id) : b = c :=
  List.inj_on_of_nodup_map hnd hb (findBatch_mem hfind)
    (by rw [hid, findBatch_id hfind])

/-- If every line resolves, every quantity is positive, and some line asks
for more than its batch currently holds, the loop ends in
`insufficientStock` (positive decrements can only shrink quantities, so the
offending line still fails when it is reached). -/
theorem sellLoop_insufficient : ∀ (lines : List SaleLine) (db : DB),
    (db.batches.map Batch.id).Nodup →
    (∀ l ∈ lines, ∃ b ∈ db.batches, b.id = l.batch_id) →
    (∀ l ∈ lines, 0 < l.quantity) →
    (∃ l ∈ lines, ∃ b ∈ db.batches, b.id = l.batch_id ∧ b.quantity < l.quantity) →
    ∃ bno avail reqd, sellLoop db lines = .error (.insufficientStock bno avail reqd) := by
  intro lines
  induction lines with
  | nil => intro db _ _ _ hbad; simp at hbad
  | cons l rest ih =>
    intro db hnd hres hpos hbad
    obtain ⟨b0, hb0, hid0⟩ := hres l (List.mem_cons_self _ _)
    obtain ⟨batch, hfind⟩ := findBatch_isSome ⟨b0, hb0, hid0⟩
    by_cases hlt : batch.quantity < l.quantity
    · refine ⟨batch.batch_no, batch.quantity, l.quantity, ?_⟩
      simp only [sellLoop, hfind]
      rw [if_pos hlt]
    · obtain ⟨l', hl', b', hb', hid', hlt'⟩ := hbad
      rcases List.mem_cons.1 hl' with rfl | hl'
      · exact absurd (findBatch_unique hnd hfind hb' hid' ▸ hlt') hlt
      · have hnd2 : ((lineDB db l).batches.map Batch.id).Nodup := by
          rw [lineDB_map_id]; exact hnd
        have hres2 : ∀ l'' ∈ rest, ∃ b ∈ (lineDB db l).batches, b.id = l''.batch_id := by
          intro l'' hl''
          obtain ⟨b, hb, hid⟩ := hres l'' (List.mem_cons_of_mem _ hl'')
          exact ⟨decLine l b, lineDB_batches db l ▸ List.mem_map_of_mem _ hb,
            (decLine_id l b).trans hid⟩
        have hpos2 : ∀ l'' ∈ rest, 0 < l''.quantity :=
          fun l'' hl'' => hpos l'' (List.mem_cons_of_mem _ hl'')
        have hbad2 : ∃ l'' ∈ rest, ∃ b ∈ (lineDB db l).batches,
            b.id = l''.batch_id ∧ b.quantity < l''.quantity := by
          refine ⟨l', hl', decLine l b', lineDB_batches db l ▸ List.mem_map_of_mem _ hb',
            (decLine_id l b').trans hid', ?_⟩
          have hq := decLine_quantity l b'
          have hlpos := hpos l (List.mem_cons_self _ _)
          rw [hq]
          split <;> omega
        obtain ⟨bno, avail, reqd, herr⟩ := ih (lineDB db l) hnd2 hres2 hpos2 hbad2
        refine ⟨bno, avail, reqd, ?_⟩
        simp only [sellLoop, hfind]
        rw [if_neg hlt, herr]

/-- C1 (amended): for every well-formed sale request — non-empty customer
name and phone, every line resolving to an existing batch, every requested
quantity positive — if some line requests more than its batch's available
quantity, the sale fails with an `InsufficientStock` error and the persisted
state equals the initial state: no batch quantity changes and no Sale row is
inserted for any line of the request.  (Batch ids are assumed pairwise
distinct, the primary-key invariant.  Without the positivity hypothesis a
negative-quantity line can replenish a batch mid-request so that a later
line exceeding the initial stock still succeeds; without resolvability the
failure can be `BatchNotFound` instead.) -/
theorem claim_C1_atomicity_amended (db : DB) (req : SaleRequest)
    (hnd : (db.batches.map Batch.id).Nodup)
    (hname : ¬req.customer_name = "") (hphone : ¬req.customer_phone = "")
    (hres : ∀ l ∈ req.lines, ∃ b ∈ db.batches, b.id = l.batch_id)
    (hpos : ∀ l ∈ req.lines, 0 < l.quantity)
    (hbad : ∃ l ∈ req.lines, ∃ b ∈ db.batches, b.id = l.batch_id ∧ b.quantity < l.quantity) :
    ∃ bno avail reqd,
      sell_medicine db req = (.error (.insufficientStock bno avail reqd), db) := by
  obtain ⟨bno, avail, reqd, herr⟩ := sellLoop_insufficient req.lines db hnd hres hpos hbad
  refine ⟨bno, avail, reqd, ?_⟩
  have hne : ¬req.lines = [] := by
    obtain ⟨l, hl, -⟩ := hbad
    intro hcon
    rw [hcon] at hl
    cases hl
  unfold sell_medicine
  rw [if_neg (not_or.2 ⟨hname, hphone⟩), if_neg hne, herr]

/-- A one-batch database for exercising the sale path: 10 units in stock. -/
def dbOneBatch : DB :=
  { medicines := [{ id := 1, name := "Paracetamol" }],
    batches := [{ id := 1, medicine_id := 1, batch_no := "B1", quantity := 10,
                  mrp := 5, cost_price := 3, expiry_date := 1000 }],
    sales := [], alerts := [] }

/-- A request whose first line replenishes the batch (negative quantity) and
whose second line requests 12 units — more than the 10 available before the
request. -/
def reqReplenish : SaleRequest :=
  { customer_name := "A", customer_phone := "1",
    lines := [{ batch_id := 1, quantity := -5, price := 1 },
              { batch_id := 1, quantity := 12, price := 1 }] }

/-- C1 (counterexample): a request in which some line requests quantity
greater than its batch's available quantity (12 > 10), yet the sale
*succeeds*, the batch quantity changes (10 to 3), and Sale rows are inserted
for both lines — because the stock check runs against the working quantity
already replenished by the earlier negative-quantity line. -/
theorem claim_C1_atomicity_counterexample :
    (∃ l ∈ reqReplenish.lines, ∃ b ∈ dbOneBatch.batches,
        b.id = l.batch_id ∧ b.quantity < l.quantity) ∧
    (sell_medicine dbOneBatch reqReplenish).1.isOk = true ∧
    (sell_medicine dbOneBatch reqReplenish).2.batches.map Batch.quantity = [3] ∧
    dbOneBatch.batches.map Batch.quantity = [10] ∧
    (sell_medicine dbOneBatch reqReplenish).2.sales.map Sale.quantity_sold = [-5, 12] ∧
    dbOneBatch.sales = [] := by
  refine ⟨?_, ?_, ?_, ?_, ?_, ?_⟩ <;> decide

/-- A well-formed all-positive request asking for 11 of the 10 available. -/
def reqOverAsk : SaleRequest :=
  { customer_name := "A", customer_phone := "1",
    lines := [{ batch_id := 1, quantity := 11, price := 2 }] }

/-- C1 (witness): the amended theorem at a concrete over-asking request. -/
theorem claim_C1_atomicity_witness :
    ∃ bno avail reqd,
      sell_medicine dbOneBatch reqOverAsk =
        (.error (.insufficientStock bno avail reqd), dbOneBatch) :=
  claim_C1_atomicity_amended dbOneBatch reqOverAsk (by decide) (by decide) (by decide)
    (by decide) (by decide) (by decide)

/-- Every receipt item the loop produces satisfies
`item_total = price * quantity`. -/
theorem sellLoop_items_total : ∀ (lines : List SaleLine) (db db' : DB)
    (items : List ReceiptItem), sellLoop db lines = .ok (db', items) →
    ∀ i ∈ items, i.total = i.price * i.quantity := by
  intro lines
  induction lines with
  | nil =>
    intro db db' items h i hi
    simp only [sellLoop, Except.ok.injEq, Prod.mk.injEq] at h
    obtain ⟨-, h2⟩ := h
    rw [← h2] at hi
    cases hi
  | cons l rest ih =>
    intro db db' items h i hi
    simp only [sellLoop] at h
    cases hfind : findBatch db.batches l.batch_id with
    | none =>
      simp only [hfind] at h
      exact Except.noConfusion h
    | some batch =>
      by_cases hlt : batch.quantity < l.quantity
      · simp only [hfind, if_pos hlt] at h
        exact Except.noConfusion h
      · cases hrec : sellLoop (lineDB db l) rest with
        | error e =>
          simp only [hfind, if_neg hlt, hrec] at h
          exact Except.noConfusion h
        | ok p =>
          obtain ⟨db2, items2⟩ := p
          simp only [hfind, if_neg hlt, hrec, Except.ok.injEq, Prod.mk.injEq] at h
          obtain ⟨-, h2⟩ := h
          rw [← h2] at hi
          rcases List.mem_cons.1 hi with rfl | hi
          · rfl
          · exact ih _ _ _ hrec i hi

/-- C6 (confirmed): whenever a sale succeeds, each receipt line total equals
quantity times unit price, the subtotal is the sum of the line totals, the
tax is 5% of that sum, and the grand total is the sum plus the tax — each
rounded to 2 decimals only at the boundary (`round2` applied to the exact
accumulated values, never mid-computation). -/
theorem claim_C6_receipt (db : DB) (req : SaleRequest) (r : Receipt) (db' : DB)
    (h : sell_medicine db req = (.ok r, db')) :
    (∀ i ∈ r.items, i.total = i.price * i.quantity) ∧
    r.subtotal = round2 (sumTotals r.items) ∧
    r.tax_amount = round2 (sumTotals r.items * (5 / 100)) ∧
    r.grand_total = round2 (sumTotals r.items + sumTotals r.items * (5 / 100)) := by
  unfold sell_medicine at h
  by_cases h1 : req.customer_name = "" ∨ req.customer_phone = ""
  · rw [if_pos h1] at h
    simp at h
  · rw [if_neg h1] at h
    by_cases h2 : req.lines = []
    · rw [if_pos h2] at h
      simp at h
    · rw [if_neg h2] at h
      cases hrec : sellLoop db req.lines with
      | error e =>
        simp only [hrec] at h
        exact Except.noConfusion (congrArg Prod.fst h)
      | ok p =>
        obtain ⟨db2, items⟩ := p
        simp only [hrec, Prod.mk.injEq, Except.ok.injEq] at h
        obtain ⟨hr, -⟩ := h
        rw [← hr]
        exact ⟨sellLoop_items_total _ _ _ _ hrec, rfl, rfl, rfl⟩

/-- The two-batch database of the spec's receipt scenario. -/
def dbReceipt : DB :=
  { medicines := [{ id := 1, name := "Paracetamol" }, { id := 2, name := "Ibuprofen" }],
    batches := [{ id := 1, medicine_id := 1, batch_no := "B1", quantity := 10,
                  mrp := 10, cost_price := 5, expiry_date := 1000 },
                { id := 2, medicine_id := 2, batch_no := "B2", quantity := 10,
                  mrp := 5, cost_price := 2, expiry_date := 1000 }],
    sales := [], alerts := [] }

/-- Selling 2 units at 10.00 and 1 unit at 5.00. -/
def reqReceipt : SaleRequest :=
  { customer_name := "A", customer_phone := "1",
    lines := [{ batch_id := 1, quantity := 2, price := 10 },
              { batch_id := 2, quantity := 1, price := 5 }] }

/-- C6 (witness): the receipt theorem at the spec's concrete scenario —
subtotal 25.00, tax 1.25, grand total 26.25. -/
theorem claim_C6_receipt_witness :
    ∃ r db', sell_medicine dbReceipt reqReceipt = (.ok r, db') ∧
      (∀ i ∈ r.items, i.total = i.price * i.quantity) ∧
      r.subtotal = 25 ∧ r.tax_amount = 5 / 4 ∧ r.grand_total = 105 / 4 := by
  refine ⟨_, _, rfl, (claim_C6_receipt dbReceipt reqReceipt _ _ rfl).1, ?_, ?_, ?_⟩ <;>
    norm_num [sell_medicine, sellLoop, findBatch, decrementBatch, lineDB, lineItem,
      sumTotals, round2, roundHalfEven, dbReceipt, reqReceipt, List.find?]

/-- The sale row inserted for one request line. -/
def saleOfLine (l : SaleLine) : Sale :=
  { batch_id := l.batch_id, quantity_sold := l.quantity, selling_price := l.price }

theorem lineDB_sales (db : DB) (l : SaleLine) :
    (lineDB db l).sales = db.sales ++ [saleOfLine l] := rfl

/-- The total quantity the request's lines take from one batch id. -/
def linesQty (lines : List SaleLine) (id : Nat) : Int :=
  ((lines.filter fun l => decide (l.batch_id = id)).map SaleLine.quantity).sum

theorem linesQty_nil (id : Nat) : linesQty [] id = 0 := rfl

theorem linesQty_cons (l : SaleLine) (rest : List SaleLine) (id : Nat) :
    linesQty (l :: rest) id =
      (if l.batch_id = id then l.quantity else 0) + linesQty rest id := by
  simp only [linesQty, List.filter_cons]
  by_cases h : l.batch_id = id
  · simp [h]
  · simp [h]

/-- When every line resolves and has non-positive quantity (over a
non-negative stock state), the loop accepts everything: one sale row per
line, and each batch's quantity decremented by the (non-positive) total its
lines request. -/
theorem sellLoop_nonpos : ∀ (lines : List SaleLine) (db : DB),
    (∀ l ∈ lines, ∃ b ∈ db.batches, b.id = l.batch_id) →
    (∀ l ∈ lines, l.quantity ≤ 0) →
    (∀ b ∈ db.batches, 0 ≤ b.quantity) →
    ∃ db' items, sellLoop db lines = .ok (db', items) ∧
      db'.sales = db.sales ++ lines.map saleOfLine ∧
      ∀ b' ∈ db'.batches, ∃ b ∈ db.batches, b'.id = b.id ∧ b'.batch_no = b.batch_no ∧
        b'.quantity = b.quantity - linesQty lines b.id := by
  intro lines
  induction lines with
  | nil =>
    intro db _ _ _
    exact ⟨db, [], rfl, by simp, fun b' hb' =>
      ⟨b', hb', rfl, rfl, by rw [linesQty_nil]; omega⟩⟩
  | cons l rest ih =>
    intro db hres hnp hnn
    obtain ⟨b0, hb0, hid0⟩ := hres l (List.mem_cons_self _ _)
    obtain ⟨batch, hfind⟩ := findBatch_isSome ⟨b0, hb0, hid0⟩
    have hpass : ¬batch.quantity < l.quantity := by
      have h1 := hnn batch (findBatch_mem hfind)
      have h2 := hnp l (List.mem_cons_self _ _)
      omega
    have hres2 : ∀ l'' ∈ rest, ∃ b ∈ (lineDB db l).batches, b.id = l''.batch_id := by
      intro l'' hl''
      obtain ⟨b, hb, hid⟩ := hres l'' (List.mem_cons_of_mem _ hl'')
      exact ⟨decLine l b, lineDB_batches db l ▸ List.mem_map_of_mem _ hb,
        (decLine_id l b).trans hid⟩
    have hnp2 : ∀ l'' ∈ rest, l''.quantity ≤ 0 :=
      fun l'' hl'' => hnp l'' (List.mem_cons_of_mem _ hl'')
    have hnn2 : ∀ b2 ∈ (lineDB db l).batches, 0 ≤ b2.quantity := by
      intro b2 hb2
      rw [lineDB_batches] at hb2
      obtain ⟨b, hb, rfl⟩ := List.mem_map.1 hb2
      rw [decLine_quantity]
      have h1 := hnn b hb
      have h2 := hnp l (List.mem_cons_self _ _)
      split <;> omega
    obtain ⟨db', items, hrec, hsales, hqty⟩ := ih (lineDB db l) hres2 hnp2 hnn2
    refine ⟨db', lineItem db batch l :: items, ?_, ?_, ?_⟩
    · simp only [sellLoop, hfind, if_neg hpass, hrec]
    · rw [hsales, lineDB_sales, List.map_cons, List.append_assoc, List.singleton_append]
    · intro b' hb'
      obtain ⟨b2, hb2, hid2, hbno2, hq2⟩ := hqty b' hb'
      rw [lineDB_batches] at hb2
      obtain ⟨b, hb, rfl⟩ := List.mem_map.1 hb2
      refine ⟨b, hb, hid2.trans (decLine_id l b), hbno2.trans (decLine_batch_no l b), ?_⟩
      rw [hq2, decLine_quantity, decLine_id, linesQty_cons]
      by_cases hc : b.id = l.batch_id
      · rw [if_pos hc, if_pos (hc.symm ▸ rfl : l.batch_id = b.id)]
        omega
      · rw [if_neg hc, if_neg fun hcon => hc hcon.symm]
        omega

/-- C10 (confirmed): the sale operation never rejects a line for a
non-positive quantity.  For a request whose lines all resolve and all carry
`quantity ≤ 0` (over non-negative stock), every line passes the stock check
(`batch.quantity < quantity` is false), the sale succeeds, one Sale row with
that `quantity_sold` is inserted per line, and each batch's quantity is
decremented by the (non-positive) total its lines request — so a negative
`quantity_sold` increases the batch's stock. -/
theorem claim_C10_nonpositive_quantity (db : DB) (req : SaleRequest)
    (hname : ¬req.customer_name = "") (hphone : ¬req.customer_phone = "")
    (hne : ¬req.lines = [])
    (hres : ∀ l ∈ req.lines, ∃ b ∈ db.batches, b.id = l.batch_id)
    (hnp : ∀ l ∈ req.lines, l.quantity ≤ 0)
    (hnn : ∀ b ∈ db.batches, 0 ≤ b.quantity) :
    ∃ r db', sell_medicine db req = (.ok r, db') ∧
      db'.sales = db.sales ++ req.lines.map saleOfLine ∧
      ∀ b' ∈ db'.batches, ∃ b ∈ db.batches, b'.id = b.id ∧ b'.batch_no = b.batch_no ∧
        b'.quantity = b.quantity - linesQty req.lines b.id := by
  obtain ⟨db', items, hrec, hsales, hqty⟩ := sellLoop_nonpos req.lines db hres hnp hnn
  have heq : sell_medicine db req =
      (.ok { items := items, subtotal := round2 (sumTotals items),
             tax_amount := round2 (sumTotals items * (5 / 100)),
             grand_total := round2 (sumTotals items + sumTotals items * (5 / 100)) }, db') := by
    unfold sell_medicine
    rw [if_neg (not_or.2 ⟨hname, hphone⟩), if_neg hne, hrec]
  exact ⟨_, db', heq, hsales, hqty⟩

/-- A request returning 3 units to the single 10-unit batch. -/
def reqReturn : SaleRequest :=
  { customer_name := "A", customer_phone := "1",
    lines := [{ batch_id := 1, quantity := -3, price := 2 }] }

/-- C10 (witness): the theorem at a concrete negative-quantity request, plus
the concrete outcome — the batch's stock rises from 10 to 13 and a sale row
with `quantity_sold = -3` is recorded. -/
theorem claim_C10_nonpositive_quantity_witness :
    (∃ r db', sell_medicine dbOneBatch reqReturn = (.ok r, db') ∧
      db'.sales = dbOneBatch.sales ++ reqReturn.lines.map saleOfLine ∧
      ∀ b' ∈ db'.batches, ∃ b ∈ dbOneBatch.batches, b'.id = b.id ∧
        b'.batch_no = b.batch_no ∧
        b'.quantity = b.quantity - linesQty reqReturn.lines b.id) ∧
    (sell_medicine dbOneBatch reqReturn).2.batches.map Batch.quantity = [13] ∧
    (sell_medicine dbOneBatch reqReturn).2.sales.map Sale.quantity_sold = [-3] :=
  ⟨claim_C10_nonpositive_quantity dbOneBatch reqReturn (by decide) (by decide)
      (by decide) (by decide) (by decide) (by decide),
   by decide, by decide⟩

/-! ## The batch invariant: distinct ids (primary key) and non-negative
quantities -/

/-- The invariant the batches table is meant to maintain: ids pairwise
distinct (primary key) and quantities non-negative. -/
def BatchInv (db : DB) : Prop :=
  (db.batches.map Batch.id).Nodup ∧ ∀ b ∈ db.batches, 0 ≤ b.quantity

theorem foldl_max_init_le (l : List Nat) (a : Nat) : a ≤ l.foldl max a := by
  induction l generalizing a with
  | nil => exact le_refl a
  | cons c l ih => exact le_trans (le_max_left a c) (ih (max a c))

theorem mem_le_foldl_max (l : List Nat) : ∀ (a x : Nat), x ∈ l → x ≤ l.foldl max a := by
  induction l with
  | nil => intro a x hx; cases hx
  | cons c l ih =>
    intro a x hx
    rcases List.mem_cons.1 hx with rfl | hx
    · exact le_trans (le_max_right a x) (foldl_max_init_le l (max a x))
    · exact ih (max a c) x hx

/-- `AUTOINCREMENT` produces a fresh primary key. -/
theorem nextBatchId_not_mem (db : DB) : nextBatchId db ∉ db.batches.map Batch.id := by
  intro h
  have := mem_le_foldl_max (db.batches.map Batch.id) 0 _ h
  unfold nextBatchId at this
  omega

/-- A successful pass of the sale loop preserves the batch invariant: each
decrement happens only after its stock check passed. -/
theorem sellLoop_inv : ∀ (lines : List SaleLine) (db db' : DB)
    (items : List ReceiptItem), sellLoop db lines = .ok (db', items) →
    BatchInv db → BatchInv db' := by
  intro lines
  induction lines with
  | nil =>
    intro db db' items h hinv
    simp only [sellLoop, Except.ok.injEq, Prod.mk.injEq] at h
    exact h.1 ▸ hinv
  | cons l rest ih =>
    intro db db' items h hinv
    simp only [sellLoop] at h
    cases hfind : findBatch db.batches l.batch_id with
    | none =>
      simp only [hfind] at h
      exact Except.noConfusion h
    | some batch =>
      by_cases hlt : batch.quantity < l.quantity
      · simp only [hfind, if_pos hlt] at h
        exact Except.noConfusion h
      · cases hrec : sellLoop (lineDB db l) rest with
        | error e =>
          simp only [hfind, if_neg hlt, hrec] at h
          exact Except.noConfusion h
        | ok p =>
          obtain ⟨db2, items2⟩ := p
          simp only [hfind, if_neg hlt, hrec, Except.ok.injEq, Prod.mk.injEq] at h
          refine h.1 ▸ ih (lineDB db l) db2 items2 hrec ⟨?_, ?_⟩
          · rw [lineDB_map_id]
            exact hinv.1
          · intro b2 hb2
            rw [lineDB_batches] at hb2
            obtain ⟨b, hb, rfl⟩ := List.mem_map.1 hb2
            rw [decLine_quantity]
            by_cases hc : b.id = l.batch_id
            · rw [if_pos hc]
              have hbe : b = batch := findBatch_unique hinv.1 hfind hb hc
              subst hbe
              omega
            · rw [if_neg hc]
              have := hinv.2 b hb
              omega

/-- Sale processing preserves the batch invariant in the persisted state. -/
theorem sell_medicine_inv (db : DB) (req : SaleRequest) (hinv : BatchInv db) :
    BatchInv (sell_medicine db req).2 := by
  unfold sell_medicine
  by_cases h1 : req.customer_name = "" ∨ req.customer_phone = ""
  · rw [if_pos h1]
    exact hinv
  · rw [if_neg h1]
    by_cases h2 : req.lines = []
    · rw [if_pos h2]
      exact hinv
    · rw [if_neg h2]
      cases hrec : sellLoop db req.lines with
      | error e => exact hinv
      | ok p =>
        obtain ⟨db2, items⟩ := p
        exact sellLoop_inv _ _ _ _ hrec hinv

/-- When batch creation succeeds it appends exactly one row: fresh id, the
form's quantity and dates (the optional alert step never touches batches). -/
theorem add_batch_ok_batches (db : DB) (f : BatchForm) (today : Int) (db' : DB)
    (h : add_batch db f today = .ok db') :
    ∃ mid, f.medicine_id = some mid ∧
      db'.batches = db.batches ++
        [{ id := nextBatchId db, medicine_id := mid, batch_no := f.batch_no,
           quantity := f.quantity, mrp := f.mrp, cost_price := f.cost_price,
           expiry_date := f.expiry_date }] := by
  unfold add_batch at h
  cases hm : f.medicine_id with
  | none =>
    simp only [hm] at h
    exact Except.noConfusion h
  | some mid =>
    simp only [hm] at h
    by_cases hbn : f.batch_no = ""
    · rw [if_pos hbn] at h
      exact Except.noConfusion h
    · rw [if_neg hbn] at h
      by_cases hdup : (db.batches.any fun b => decide (b.batch_no = f.batch_no)) = true
      · rw [if_pos hdup] at h
        exact Except.noConfusion h
      · rw [if_neg hdup] at h
        refine ⟨mid, rfl, ?_⟩
        by_cases hdays : f.expiry_date - today ≤ 30
        · rw [if_pos hdays] at h
          split at h <;> (injection h with h; rw [← h])
        · rw [if_neg hdays] at h
          injection h with h
          rw [← h]

/-- Batch creation with a non-negative form quantity preserves the batch
invariant (on an error path the state is unchanged). -/
theorem add_batch_inv (db : DB) (f : BatchForm) (today : Int)
    (hq : 0 ≤ f.quantity) (hinv : BatchInv db) :
    BatchInv (applyOp db (.addBatch f today)) := by
  show BatchInv (match add_batch db f today with | .ok db' => db' | .error _ => db)
  cases hab : add_batch db f today with
  | error e => exact hinv
  | ok db' =>
    obtain ⟨mid, -, hb⟩ := add_batch_ok_batches db f today db' hab
    constructor
    · rw [hb, List.map_append, List.nodup_append]
      refine ⟨hinv.1, List.nodup_singleton _, ?_⟩
      intro x hx hx1
      simp only [List.map_cons, List.map_nil, List.mem_singleton] at hx1
      subst hx1
      exact nextBatchId_not_mem db hx
    · intro b hbmem
      rw [hb] at hbmem
      rcases List.mem_append.1 hbmem with hbm | hbm
      · exact hinv.2 b hbm
      · rw [List.mem_singleton.1 hbm]
        exact hq

/-- Every state reachable by sale processing and batch creation with
non-negative quantity inputs satisfies the batch invariant. -/
theorem reachableNN_inv {db : DB} (h : ReachableNN initDB db) : BatchInv db := by
  induction h with
  | refl => exact ⟨by decide, by decide⟩
  | addBatch f today hq hr ih => exact add_batch_inv _ f _ hq ih
  | sell req hr ih => exact sell_medicine_inv _ req ih

/-- C8 (amended): in every state reachable from the seeded database by sale
processing and by batch creation whose quantity input is non-negative, every
batch quantity is non-negative.  (The restriction on batch creation is
necessary: the handler parses the form quantity with `int(...)` and never
checks its sign, so a negative input creates a negative-quantity batch.) -/
theorem claim_C8_nonneg_amended (db : DB) (h : ReachableNN initDB db) :
    ∀ b ∈ db.batches, 0 ≤ b.quantity :=
  (reachableNN_inv h).2

/-- A batch-creation form carrying a negative quantity, as produced by
submitting `quantity=-1`. -/
def negQtyForm : BatchForm :=
  { medicine_id := some 1, batch_no := "NEG1", quantity := -1,
    mrp := 1, cost_price := 1, expiry_date := 10000 }

/-- C8 (counterexample): the claim as stated is false — from the seeded
database, one batch-creation request with `quantity=-1` reaches a state
containing a batch with quantity `-1`, because `add_batch` never validates
the sign of its quantity input. -/
theorem claim_C8_nonneg_counterexample :
    ¬(∀ db, ReachableFrom initDB db → ∀ b ∈ db.batches, 0 ≤ b.quantity) := by
  intro h
  have hr := h (applyOp initDB (.addBatch negQtyForm 0))
    (ReachableFrom.step _ ReachableFrom.refl)
  revert hr
  decide

/-- A well-formed batch-creation form with a positive quantity. -/
def posQtyForm : BatchForm :=
  { medicine_id := some 1, batch_no := "OK1", quantity := 7,
    mrp := 1, cost_price := 1, expiry_date := 10000 }

/-- C8 (witness): the amended theorem after one concrete non-negative batch
creation step from the seeded database — every quantity in the resulting
state checks non-negative. -/
theorem claim_C8_nonneg_witness :
    ((applyOp initDB (.addBatch posQtyForm 0)).batches.all
      fun b => decide (0 ≤ b.quantity)) = true :=
  List.all_eq_true.2 fun b hb => decide_eq_true
    (claim_C8_nonneg_amended _
      (ReachableNN.addBatch posQtyForm 0 (by decide) ReachableNN.refl) b hb)

/-! ## Characterizing the rule engine's candidates -/

theorem lowStockCandidate_fields {batches : List Batch} {m : Medicine} {c : Candidate}
    (h : lowStockCandidate batches m = some c) :
    c.alert_type = .low_stock ∧ c.medicine_id = some m.id ∧ c.batch_id = none ∧
    0 < totalStock batches m.id ∧ totalStock batches m.id ≤ 20 ∧
    c.priority = (if totalStock batches m.id ≤ 5 then Priority.high else Priority.medium) := by
  simp only [lowStockCandidate] at h
  split at h
  · next hcond =>
    injection h with h
    rw [← h]
    exact ⟨rfl, rfl, rfl, hcond.1, hcond.2, rfl⟩
  · exact Option.noConfusion h

theorem lowStockCandidate_isSome {batches : List Batch} {m : Medicine}
    (hcond : 0 < totalStock batches m.id ∧ totalStock batches m.id ≤ 20) :
    ∃ c, lowStockCandidate batches m = some c := by
  simp only [lowStockCandidate]
  rw [if_pos hcond]
  exact ⟨_, rfl⟩

theorem nearExpiryCandidate_fields {medicines : List Medicine} {today : Int}
    {b : Batch} {c : Candidate} (h : nearExpiryCandidate medicines today b = some c) :
    c.alert_type = .expiry ∧ c.batch_id = some b.id ∧
    (today ≤ b.expiry_date ∧ b.expiry_date ≤ today + 30 ∧ 0 < b.quantity) ∧
    c.priority = (if b.expiry_date - today ≤ 7 then Priority.high else Priority.medium) := by
  simp only [nearExpiryCandidate] at h
  split at h
  · exact Option.noConfusion h
  · split at h
    · next hcond =>
      injection h with h
      rw [← h]
      exact ⟨rfl, rfl, hcond, rfl⟩
    · exact Option.noConfusion h

theorem nearExpiryCandidate_isSome {medicines : List Medicine} {today : Int} {b : Batch}
    (hown : ∃ m ∈ medicines, m.id = b.medicine_id)
    (hcond : today ≤ b.expiry_date ∧ b.expiry_date ≤ today + 30 ∧ 0 < b.quantity) :
    ∃ c, nearExpiryCandidate medicines today b = some c := by
  obtain ⟨m, hm, hid⟩ := hown
  have hs : (medicines.find? fun m => decide (m.id = b.medicine_id)).isSome := by
    rw [List.find?_isSome]
    exact ⟨m, hm, by simpa using hid⟩
  obtain ⟨m', hm'⟩ := Option.isSome_iff_exists.1 hs
  simp only [nearExpiryCandidate, hm']
  rw [if_pos hcond]
  exact ⟨_, rfl⟩

theorem expiredCandidate_fields {medicines : List Medicine} {today : Int}
    {b : Batch} {c : Candidate} (h : expiredCandidate medicines today b = some c) :
    c.alert_type = .expired ∧ c.batch_id = some b.id ∧
    (b.expiry_date < today ∧ 0 < b.quantity) ∧ c.priority = Priority.high := by
  simp only [expiredCandidate] at h
  split at h
  · exact Option.noConfusion h
  · split at h
    · next hcond =>
      injection h with h
      rw [← h]
      exact ⟨rfl, rfl, hcond, rfl⟩
    · exact Option.noConfusion h

theorem expiredCandidate_isSome {medicines : List Medicine} {today : Int} {b : Batch}
    (hown : ∃ m ∈ medicines, m.id = b.medicine_id)
    (hcond : b.expiry_date < today ∧ 0 < b.quantity) :
    ∃ c, expiredCandidate medicines today b = some c := by
  obtain ⟨m, hm, hid⟩ := hown
  have hs : (medicines.find? fun m => decide (m.id = b.medicine_id)).isSome := by
    rw [List.find?_isSome]
    exact ⟨m, hm, by simpa using hid⟩
  obtain ⟨m', hm'⟩ := Option.isSome_iff_exists.1 hs
  simp only [expiredCandidate, hm']
  rw [if_pos hcond]
  exact ⟨_, rfl⟩

theorem mem_alertCandidates (db : DB) (today : Int) (c : Candidate) :
    c ∈ alertCandidates db today ↔
      (∃ m ∈ db.medicines, lowStockCandidate db.batches m = some c) ∨
      (∃ b ∈ db.batches, nearExpiryCandidate db.medicines today b = some c) ∨
      (∃ b ∈ db.batches, expiredCandidate db.medicines today b = some c) := by
  simp [alertCandidates, List.mem_append, List.mem_filterMap, or_assoc]

/-- C3 (confirmed): with distinct medicine ids (the primary-key invariant),
one engine run emits a low-stock alert for a medicine exactly when its
summed batch quantity is greater than 0 and at most 20, with priority `high`
when the total is at most 5 and `medium` otherwise — so a total of 20 yields
`medium`, 5 yields `high`, and 21 or 0 yield no low-stock alert. -/
theorem claim_C3_low_stock_rule (db : DB) (today : Int) (m : Medicine)
    (hm : m ∈ db.medicines)
    (hnd : (db.medicines.map Medicine.id).Nodup) :
    ((∃ c ∈ alertCandidates db today,
        c.alert_type = .low_stock ∧ c.medicine_id = some m.id) ↔
      (0 < totalStock db.batches m.id ∧ totalStock db.batches m.id ≤ 20)) ∧
    (∀ c ∈ alertCandidates db today, c.alert_type = .low_stock →
      c.medicine_id = some m.id →
      c.priority = if totalStock db.batches m.id ≤ 5 then Priority.high
                   else Priority.medium) := by
  constructor
  · constructor
    · rintro ⟨c, hc, htype, hmid⟩
      rcases (mem_alertCandidates db today c).1 hc with
        ⟨m', hm', hcand⟩ | ⟨b, hb, hcand⟩ | ⟨b, hb, hcand⟩
      · obtain ⟨-, hmid', -, h1, h2, -⟩ := lowStockCandidate_fields hcand
        have hid : m'.id = m.id := Option.some.inj (hmid'.symm.trans hmid)
        have hmm : m' = m := List.inj_on_of_nodup_map hnd hm' hm hid
        rw [← hmm]
        exact ⟨h1, h2⟩
      · exact AlertType.noConfusion
          (htype.symm.trans (nearExpiryCandidate_fields hcand).1)
      · exact AlertType.noConfusion
          (htype.symm.trans (expiredCandidate_fields hcand).1)
    · intro hcond
      obtain ⟨c, hcand⟩ := lowStockCandidate_isSome hcond
      obtain ⟨htype, hmid, -, -, -, -⟩ := lowStockCandidate_fields hcand
      exact ⟨c, (mem_alertCandidates db today c).2 (Or.inl ⟨m, hm, hcand⟩), htype, hmid⟩
  · intro c hc htype hmid
    rcases (mem_alertCandidates db today c).1 hc with
      ⟨m', hm', hcand⟩ | ⟨b, hb, hcand⟩ | ⟨b, hb, hcand⟩
    · obtain ⟨-, hmid', -, -, -, hpr⟩ := lowStockCandidate_fields hcand
      have hid : m'.id = m.id := Option.some.inj (hmid'.symm.trans hmid)
      have hmm : m' = m := List.inj_on_of_nodup_map hnd hm' hm hid
      rw [hpr, hmm]
    · exact AlertType.noConfusion
        (htype.symm.trans (nearExpiryCandidate_fields hcand).1)
    · exact AlertType.noConfusion
        (htype.symm.trans (expiredCandidate_fields hcand).1)

/-- C4 (confirmed): with distinct batch ids and an existing owning medicine,
one engine run flags a positive-quantity batch near-expiry exactly when its
expiry date lies in `[today, today + 30]` — priority `high` when at most 7
days remain, else `medium` — and flags it expired (always `high`) exactly
when its expiry date is strictly before today.  So 30 days out is flagged
`medium`, 31 days out is not flagged, and 1 day past is flagged expired. -/
theorem claim_C4_expiry_rule (db : DB) (today : Int) (b : Batch)
    (hb : b ∈ db.batches) (hq : 0 < b.quantity)
    (hnd : (db.batches.map Batch.id).Nodup)
    (hown : ∃ m ∈ db.medicines, m.id = b.medicine_id) :
    ((∃ c ∈ alertCandidates db today,
        c.alert_type = .expiry ∧ c.batch_id = some b.id) ↔
      (today ≤ b.expiry_date ∧ b.expiry_date ≤ today + 30)) ∧
    (∀ c ∈ alertCandidates db today, c.alert_type = .expiry →
      c.batch_id = some b.id →
      c.priority = if b.expiry_date - today ≤ 7 then Priority.high
                   else Priority.medium) ∧
    ((∃ c ∈ alertCandidates db today,
        c.alert_type = .expired ∧ c.batch_id = some b.id) ↔
      b.expiry_date < today) ∧
    (∀ c ∈ alertCandidates db today, c.alert_type = .expired →
      c.batch_id = some b.id → c.priority = Priority.high) := by
  refine ⟨⟨?_, ?_⟩, ?_, ⟨?_, ?_⟩, ?_⟩
  · rintro ⟨c, hc, htype, hbid⟩
    rcases (mem_alertCandidates db today c).1 hc with
      ⟨m', hm', hcand⟩ | ⟨b', hb', hcand⟩ | ⟨b', hb', hcand⟩
    · exact AlertType.noConfusion
        (htype.symm.trans (lowStockCandidate_fields hcand).1)
    · obtain ⟨-, hbid', hcond, -⟩ := nearExpiryCandidate_fields hcand
      have hid : b'.id = b.id := Option.some.inj (hbid'.symm.trans hbid)
      have hbb : b' = b := List.inj_on_of_nodup_map hnd hb' hb hid
      rw [← hbb]
      exact ⟨hcond.1, hcond.2.1⟩
    · exact AlertType.noConfusion
        (htype.symm.trans (expiredCandidate_fields hcand).1)
  · intro hcond
    obtain ⟨c, hcand⟩ := nearExpiryCandidate_isSome hown ⟨hcond.1, hcond.2, hq⟩
    obtain ⟨htype, hbid, -, -⟩ := nearExpiryCandidate_fields hcand
    exact ⟨c, (mem_alertCandidates db today c).2 (Or.inr (Or.inl ⟨b, hb, hcand⟩)),
      htype, hbid⟩
  · intro c hc htype hbid
    rcases (mem_alertCandidates db today c).1 hc with
      ⟨m', hm', hcand⟩ | ⟨b', hb', hcand⟩ | ⟨b', hb', hcand⟩
    · exact AlertType.noConfusion
        (htype.symm.trans (lowStockCandidate_fields hcand).1)
    · obtain ⟨-, hbid', -, hpr⟩ := nearExpiryCandidate_fields hcand
      have hid : b'.id = b.id := Option.some.inj (hbid'.symm.trans hbid)
      have hbb : b' = b := List.inj_on_of_nodup_map hnd hb' hb hid
      rw [hpr, hbb]
    · exact AlertType.noConfusion
        (htype.symm.trans (expiredCandidate_fields hcand).1)
  · rintro ⟨c, hc, htype, hbid⟩
    rcases (mem_alertCandidates db today c).1 hc with
      ⟨m', hm', hcand⟩ | ⟨b', hb', hcand⟩ | ⟨b', hb', hcand⟩
    · exact AlertType.noConfusion
        (htype.symm.trans (lowStockCandidate_fields hcand).1)
    · exact AlertType.noConfusion
        (htype.symm.trans (nearExpiryCandidate_fields hcand).1)
    · obtain ⟨-, hbid', hcond, -⟩ := expiredCandidate_fields hcand
      have hid : b'.id = b.id := Option.some.inj (hbid'.symm.trans hbid)
      have hbb : b' = b := List.inj_on_of_nodup_map hnd hb' hb hid
      rw [← hbb]
      exact hcond.1
  · intro hcond
    obtain ⟨c, hcand⟩ := expiredCandidate_isSome hown ⟨hcond, hq⟩
    obtain ⟨htype, hbid, -, -⟩ := expiredCandidate_fields hcand
    exact ⟨c, (mem_alertCandidates db today c).2 (Or.inr (Or.inr ⟨b, hb, hcand⟩)),
      htype, hbid⟩
  · intro c hc htype hbid
    rcases (mem_alertCandidates db today c).1 hc with
      ⟨m', hm', hcand⟩ | ⟨b', hb', hcand⟩ | ⟨b', hb', hcand⟩
    · exact AlertType.noConfusion
        (htype.symm.trans (lowStockCandidate_fields hcand).1)
    · exact AlertType.noConfusion
        (htype.symm.trans (nearExpiryCandidate_fields hcand).1)
    · exact (expiredCandidate_fields hcand).2.2.2

/-- A single medicine sitting exactly at the low-stock boundary. -/
def medLow : Medicine := { id := 1, name := "Paracetamol" }

/-- Two batches totalling exactly 20 units for `medLow`. -/
def dbLow : DB :=
  { medicines := [medLow],
    batches := [{ id := 1, medicine_id := 1, batch_no := "L1", quantity := 12,
                  mrp := 5, cost_price := 3, expiry_date := 1000 },
                { id := 2, medicine_id := 1, batch_no := "L2", quantity := 8,
                  mrp := 5, cost_price := 3, expiry_date := 1000 }],
    sales := [], alerts := [] }

/-- C3 (witness): the low-stock theorem at a concrete 20-unit boundary
database. -/
theorem claim_C3_low_stock_rule_witness :
    totalStock dbLow.batches 1 = 20 ∧
    (((∃ c ∈ alertCandidates dbLow 0,
        c.alert_type = .low_stock ∧ c.medicine_id = some medLow.id) ↔
      (0 < totalStock dbLow.batches medLow.id ∧ totalStock dbLow.batches medLow.id ≤ 20)) ∧
    (∀ c ∈ alertCandidates dbLow 0, c.alert_type = .low_stock →
      c.medicine_id = some medLow.id →
      c.priority = if totalStock dbLow.batches medLow.id ≤ 5 then Priority.high
                   else Priority.medium)) :=
  ⟨by decide, claim_C3_low_stock_rule dbLow 0 medLow (by decide) (by decide)⟩

/-- One positive-quantity batch expiring exactly 30 days after day 0. -/
def batch30 : Batch :=
  { id := 1, medicine_id := 1, batch_no := "E1", quantity := 5,
    mrp := 5, cost_price := 3, expiry_date := 30 }

/-- The database holding `batch30` and its owning medicine. -/
def dbExp : DB :=
  { medicines := [{ id := 1, name := "Amoxicillin" }],
    batches := [batch30], sales := [], alerts := [] }

/-- C4 (witness): the expiry theorem at a concrete batch expiring in exactly
30 days from day 0. -/
theorem claim_C4_expiry_rule_witness :
    batch30.expiry_date - 0 = 30 ∧
    (((∃ c ∈ alertCandidates dbExp 0,
        c.alert_type = .expiry ∧ c.batch_id = some batch30.id) ↔
      (0 ≤ batch30.expiry_date ∧ batch30.expiry_date ≤ 0 + 30)) ∧
    (∀ c ∈ alertCandidates dbExp 0, c.alert_type = .expiry →
      c.batch_id = some batch30.id →
      c.priority = if batch30.expiry_date - 0 ≤ 7 then Priority.high
                   else Priority.medium) ∧
    ((∃ c ∈ alertCandidates dbExp 0,
        c.alert_type = .expired ∧ c.batch_id = some batch30.id) ↔
      batch30.expiry_date < 0) ∧
    (∀ c ∈ alertCandidates dbExp 0, c.alert_type = .expired →
      c.batch_id = some batch30.id → c.priority = Priority.high)) :=
  ⟨by decide, claim_C4_expiry_rule dbExp 0 batch30 (by decide) (by decide)
      (by decide) ⟨{ id := 1, name := "Amoxicillin" }, by decide, by decide⟩⟩

/-- A database in which medicine 1 owns one batch. -/
def dbDel : DB :=
  { medicines := [{ id := 1, name := "Paracetamol" }],
    batches := [{ id := 1, medicine_id := 1, batch_no := "D1", quantity := 9,
                  mrp := 5, cost_price := 3, expiry_date := 1000 }],
    sales := [], alerts := [] }

/-- C9 (code-bug evidence): deleting medicine 1 removes the medicines row
but leaves the batch row that references it in place — the `ON DELETE
CASCADE` declared in the schema never fires because foreign-key enforcement
is off on the connection.  The spec-modelled `delete_medicine_cascade`
would have removed the batch. -/
theorem claim_C9_delete_not_cascading :
    (delete_medicine dbDel 1).medicines = [] ∧
    (delete_medicine dbDel 1).batches = dbDel.batches ∧
    dbDel.batches.map Batch.medicine_id = [1] ∧
    (delete_medicine_cascade dbDel 1).batches = [] :=
  ⟨by decide, rfl, by decide, by decide⟩

end SmartPharma
